import Mathlib

/-!
Formal model of the pasargad selenium trader repository.

The Python sources are shallowly embedded as pure Lean functions:

- utils.read_trade_data   : record cleaning, validation and the sort policy;
- utils.log               : the log sink, as a function on file contents;
- stock_trader.wait_until_market_open : the market-open sleep computation,
  over integer wall-clock seconds;
- stock_trader.StockTrader.login, create_draft, execute_drafts,
  check_and_close_password_modal : as functions of an environment record
  describing which page elements appear, returning results and traces of
  the browser actions performed;
- orchestrator.run_batched_draft_process, run_batched_execution_process,
  chunk_tasks, main_orchestrator : over abstract per-account step results,
  returning per-account outcome maps, event traces and teardown flags.

Selenium, pandas and the OCR library are collaborators outside the model:
their behaviour enters only through the environment records.
-/

/-! ## Trade records: cleaning, validation and the sort policy
    (utils.read_trade_data) -/

/-- One row of a trade sheet after the numeric coercion of the Price and
Volume columns.  Name and Direction are kept as raw strings so that the
normalization steps of read_trade_data can be stated. -/
structure TradeRecord where
  Name : String
  Direction : String
  Price : Int
  Volume : Int
deriving Repr, DecidableEq

/-- Python str.title on a list of characters: an alphabetic character is
uppercased when the previous character is not alphabetic and lowercased
otherwise.  The Boolean argument records whether the previous character
was alphabetic. -/
def titleChars : Bool → List Char → List Char
  | _, [] => []
  | prevAlpha, c :: cs =>
    if c.isAlpha then
      (if prevAlpha then c.toLower else c.toUpper) :: titleChars true cs
    else
      c :: titleChars false cs

/-- Python str.title. -/
def pyTitle (s : String) : String :=
  { data := titleChars false s.data }

/-- Python str.strip on a list of characters: leading and trailing
whitespace removed. -/
def stripChars (cs : List Char) : List Char :=
  ((cs.dropWhile Char.isWhitespace).reverse.dropWhile Char.isWhitespace).reverse

/-- Python str.strip. -/
def pyStrip (s : String) : String :=
  { data := stripChars s.data }

/-- Python str.upper. -/
def pyUpper (s : String) : String :=
  { data := s.data.map Char.toUpper }

/-- The vectorized cleaning step of read_trade_data:
Name is stripped and uppercased, Direction is stripped and title-cased. -/
def cleanRecord (r : TradeRecord) : TradeRecord :=
  { r with
    Name := pyUpper (pyStrip r.Name)
    Direction := pyTitle (pyStrip r.Direction) }

/-- The validity filter of read_trade_data: Direction must be exactly
Buy or Sell and Name must be non-empty (after cleaning). -/
def isValidRecord (r : TradeRecord) : Bool :=
  (r.Direction == "Buy" || r.Direction == "Sell") && r.Name.length > 0

/-- The derived sort key of read_trade_data:
(price==0 contributes 1) + (volume==0 contributes 1). -/
def sortKey (r : TradeRecord) : Nat :=
  (if r.Price = 0 then 1 else 0) + (if r.Volume = 0 then 1 else 0)

/-- Lexicographic comparison of character lists by code point, the order
pandas uses on the Name column. -/
def charListLE : List Char → List Char → Bool
  | [], _ => true
  | _ :: _, [] => false
  | a :: as, b :: bs =>
    if a.toNat < b.toNat then true
    else if b.toNat < a.toNat then false
    else charListLE as bs

/-- Lexicographic comparison of instrument names. -/
def nameLE (a b : String) : Bool :=
  charListLE a.data b.data

/-- The comparison realised by sort_values(by=[Sort_Key, Name],
ascending=[False, True]): sort key descending, then name ascending. -/
def tradeLE (a b : TradeRecord) : Bool :=
  decide (sortKey b < sortKey a) || (sortKey a == sortKey b && nameLE a.Name b.Name)

/-- The comparison as a relation, for the sorting lemmas. -/
def tradeRel (a b : TradeRecord) : Prop :=
  tradeLE a b = true

instance : DecidableRel tradeRel := fun a b => instDecidableEqBool (tradeLE a b) true

/-- Embedding of utils.read_trade_data on an already-parsed sheet: clean
every record, keep the valid ones, and sort by the derived key descending
then name ascending.  The pandas sort is modelled by insertion sort with
the same comparison. -/
def read_trade_data (rows : List TradeRecord) : List TradeRecord :=
  let cleaned := rows.map cleanRecord
  let valid := cleaned.filter isValidRecord
  List.insertionSort tradeRel valid

/-- The skipped-record count computed by read_trade_data:
len(df) minus len(df_valid). -/
def invalidCount (rows : List TradeRecord) : Nat :=
  rows.length - ((rows.map cleanRecord).filter isValidRecord).length

/-! ## Wall-clock scheduler (stock_trader.wait_until_market_open)

Wall-clock instants are integer seconds.  A day is described by the
instant dayStart at which it begins; datetime.combine of the day with the
target time-of-day is dayStart + 3600 * hour + 60 * minute, and the same
time-of-day tomorrow is one dayLength later. -/

/-- The 10-second grace period of wait_until_market_open. -/
def grace_period : Int := 10

/-- Seconds in a day: the distance from a time-of-day to the same
time-of-day tomorrow. -/
def dayLength : Int := 86400

/-- Today's target instant: datetime.combine(now.date, time(hour, minute)). -/
def target_time_today (dayStart targetHour targetMinute : Int) : Int :=
  dayStart + 3600 * targetHour + 60 * targetMinute

/-- The sleep duration computed by wait_until_market_open, in seconds:
past target and grace, sleep until the same time-of-day tomorrow; past
target but within grace, zero; before target, sleep until target. -/
def wait_until_market_open_sleep (now dayStart targetHour targetMinute : Int) : Int :=
  let t := target_time_today dayStart targetHour targetMinute
  if now > t + grace_period then
    (target_time_today (dayStart + dayLength) targetHour targetMinute) - now
  else if now ≥ t then
    0
  else
    t - now

/-! ## Login and the change-password modal
    (stock_trader.StockTrader.login, check_and_close_password_modal)

The browser is abstracted by a record saying which elements the driver
finds and what the CAPTCHA collaborator returns.  Each function returns
its Python return value together with the trace of UI actions it
performed before returning. -/

/-- Browser environment for one login attempt. -/
structure LoginEnv where
  /-- self.driver is not None. -/
  driver : Bool
  /-- The username and password fields are found by find_element. -/
  credFieldsOk : Bool
  /-- The text returned by process_and_solve_captcha (empty on failure). -/
  captchaText : String
  /-- The CAPTCHA input field is found. -/
  captchaInputOk : Bool
  /-- The login button is found. -/
  loginButtonOk : Bool
  /-- The dashboard marker element appears within the 20 second wait. -/
  dashboardAppears : Bool
  /-- The change-password modal appears within its 1 second wait. -/
  modalAppears : Bool
  /-- The modal close button becomes clickable within its wait. -/
  closeClickable : Bool
deriving Repr, DecidableEq

/-- UI actions of the login sequence, for traces. -/
inductive UIAction where
  | typeUsername
  | typePassword
  | typeCaptcha
  | clickLogin
  | clickModalClose
deriving Repr, DecidableEq

/-- Embedding of StockTrader.check_and_close_password_modal.  Every wait
inside it catches its own TimeoutException and every other error is
caught by the final generic handler, so the function always returns
normally; the only observable effect is whether the close button was
clicked. -/
def check_and_close_password_modal (env : LoginEnv) : List UIAction :=
  if env.driver then
    if env.modalAppears then
      if env.closeClickable then [UIAction.clickModalClose]
      else []
    else []
  else []

/-- Embedding of StockTrader.login: returns the Boolean result and the
trace of UI actions performed.  Element-lookup failures raise exceptions
that the final generic handler converts to a False return; a timeout of
the dashboard wait runs check_and_close_password_modal (which never
raises) and then returns True. -/
def login (env : LoginEnv) : Bool × List UIAction :=
  if !env.driver then (false, [])
  else if !env.credFieldsOk then
    -- find_element for the credential fields raised; caught by the
    -- generic handler, which returns False.
    (false, [])
  else
    let tr0 := [UIAction.typeUsername, UIAction.typePassword]
    if env.captchaText == "" then
      -- empty CAPTCHA: log and return False before typing or clicking
      (false, tr0)
    else if !env.captchaInputOk then (false, tr0)
    else
      let tr1 := tr0 ++ [UIAction.typeCaptcha]
      if !env.loginButtonOk then (false, tr1)
      else
        let tr2 := tr1 ++ [UIAction.clickLogin]
        if env.dashboardAppears then (true, tr2)
        else
          -- TimeoutException from the dashboard wait: the modal check
          -- returns normally in every environment, so the except
          -- TimeoutException branch of login is unreachable and the
          -- attempt returns True.
          (true, tr2 ++ check_and_close_password_modal env)

/-! ## Draft creation (stock_trader.StockTrader.create_draft, run_workflow) -/

/-- Browser environment for one create_draft call: which modal elements
are found.  Volume and price each have two controls, selected by whether
the trade value is zero. -/
structure DraftEnv where
  driver : Bool
  openModalOk : Bool
  directionOk : Bool
  searchInputOk : Bool
  searchResultOk : Bool
  maxVolumeOk : Bool
  volumeInputOk : Bool
  lockPriceOk : Bool
  priceInputOk : Bool
  draftSelectionOk : Bool
  draftButtonOk : Bool
  closeOk : Bool
deriving Repr, DecidableEq

/-- Result of one create_draft call. -/
structure DraftResult where
  /-- An exception escaped create_draft. -/
  raised : Bool
  /-- The draft button was reached and clicked. -/
  drafted : Bool
  /-- The finally block attempted to close the modal. -/
  closeAttempted : Bool
  /-- The modal close click succeeded. -/
  closeSucceeded : Bool
deriving Repr, DecidableEq

/-- Whether the try body of create_draft reaches the draft click: every
step must find its element, where the volume step uses the max-volume
control when Volume is zero and the literal input otherwise, and the
price step uses the lock-price control when Price is zero and the
literal input otherwise. -/
def draftBodyOk (t : TradeRecord) (env : DraftEnv) : Bool :=
  env.openModalOk && env.directionOk && env.searchInputOk && env.searchResultOk &&
    (if t.Volume = 0 then env.maxVolumeOk else env.volumeInputOk) &&
    (if t.Price = 0 then env.lockPriceOk else env.priceInputOk) &&
    env.draftSelectionOk && env.draftButtonOk

/-- Embedding of StockTrader.create_draft.  With no driver the method
returns early.  Otherwise any exception in the body is caught by the
NoSuchElementException or generic handler, the finally block attempts to
close the modal, and the bare except around that close swallows its
failure, so the call never raises. -/
def create_draft (t : TradeRecord) (env : DraftEnv) : DraftResult :=
  if !env.driver then
    { raised := false, drafted := false, closeAttempted := false, closeSucceeded := false }
  else
    { raised := false
      drafted := draftBodyOk t env
      closeAttempted := true
      closeSucceeded := env.closeOk }

/-- The sequential draft loop of run_workflow: create_draft is called
once per trade in order; an exception escaping create_draft would abort
the remaining trades (caught by the outer handler of run_workflow). -/
def runWorkflowDraftLoop (envs : Nat → DraftEnv) : List TradeRecord → Nat → List DraftResult
  | [], _ => []
  | t :: ts, i =>
    if (create_draft t (envs i)).raised then [create_draft t (envs i)]
    else create_draft t (envs i) :: runWorkflowDraftLoop envs ts (i + 1)

/-! ## Log sink (utils.log) -/

/-- The line format of utils.log: timestamp and tag in brackets, then
the message. -/
def formatLogLine (timestamp tag message : String) : String :=
  "[" ++ timestamp ++ "][" ++ tag ++ "] " ++ message

/-- Embedding of the file write of utils.log on the log-file contents,
viewed as the list of lines: the file is opened with mode w, which
truncates it, and the single new line is written. -/
def logWrite (_file : List String) (line : String) : List String :=
  [line]

/-- The file contents the append-only contract of the spec asks for:
previous lines kept, new line added at the end. -/
def appendWrite (file : List String) (line : String) : List String :=
  file ++ [line]

/-! ## Batch workers (orchestrator.run_batched_draft_process,
    run_batched_execution_process) -/

/-- One credential row loaded by utils.read_credentials. -/
structure Credential where
  username : String
  password : String
deriving Repr, DecidableEq

/-- One entry of the orchestrator task list: username, password, log tag. -/
structure TaskTriple where
  username : String
  password : String
  logTag : String
deriving Repr, DecidableEq

/-- Per-account outcome recorded by the batch workers. -/
inductive Outcome where
  | SUCCESS
  | LOGIN_FAILURE
  | FAILURE
  | PROCESS_ERROR
deriving Repr, DecidableEq

/-- The results dictionary of a batch worker, as an association list in
insertion order. -/
abbrev ResultMap := List (String × Outcome)

/-- Dictionary membership test: username in results. -/
def hasResult (m : ResultMap) (u : String) : Bool :=
  m.any (fun p => p.1 == u)

/-- Dictionary read: the outcome stored for a username. -/
def lookupResult (m : ResultMap) (u : String) : Option Outcome :=
  m.lookup u

/-- Dictionary write results[u] = o: overwrites the existing entry or
appends a new one. -/
def setResult (m : ResultMap) (u : String) (o : Outcome) : ResultMap :=
  if hasResult m u then m.map (fun p => if p.1 == u then (u, o) else p)
  else m ++ [(u, o)]

/-- Number of entries a results dictionary holds for a username, for
stating that each account receives exactly one outcome. -/
def outcomeCount (m : ResultMap) (u : String) : Nat :=
  (m.filter (fun p => p.1 == u)).length

/-- Modelled from the spec: the per-account behaviour of the StockTrader
methods the workers call (initialize_session and draft_single_task or
execute_bulk_session), whose bodies are not part of the sources at hand.
Each returns a Boolean success, or raises an exception that the batch
boundary of the worker catches; safe_logout is best-effort and never
raises. -/
structure StepSpec where
  /-- Result of initialize_session: error value means an exception. -/
  login : Except Unit Bool
  /-- Result of draft_single_task in phase 1 or execute_bulk_session in
  phase 2: error value means an exception. -/
  action : Except Unit Bool

/-- Whether a step specification reports a successful login (an ok True
from initialize_session). -/
def loginOk (s : StepSpec) : Bool :=
  match s.login with
  | Except.ok true => true
  | _ => false

/-- Events a batch worker emits, for traces. -/
inductive WEv where
  /-- A call of wait_until_market_open. -/
  | wait
  /-- An initialize_session call for a username. -/
  | loginAttempt (u : String)
  /-- A draft_single_task call for a username. -/
  | draftAcct (u : String)
  /-- An execute_bulk_session call for a username. -/
  | execute (u : String)
  /-- A safe_logout call for a username. -/
  | logout (u : String)
deriving Repr, DecidableEq

/-- Number of wait_until_market_open calls in a trace. -/
def countWaits (tr : List WEv) : Nat :=
  (tr.filter (fun e => e == WEv.wait)).length

/-- The per-user loop of run_batched_draft_process: login, then draft,
then logout, recording LOGIN_FAILURE, SUCCESS or FAILURE; an exception
aborts the loop with the results collected so far. -/
def draftLoop (spec : String → StepSpec) :
    List TaskTriple → ResultMap → ResultMap × List WEv × Bool
  | [], res => (res, [], false)
  | t :: rest, res =>
    match (spec t.username).login with
    | Except.error _ => (res, [WEv.loginAttempt t.username], true)
    | Except.ok false =>
      let (res1, tr1, exc1) := draftLoop spec rest (setResult res t.username Outcome.LOGIN_FAILURE)
      (res1, WEv.loginAttempt t.username :: tr1, exc1)
    | Except.ok true =>
      match (spec t.username).action with
      | Except.error _ =>
        (res, [WEv.loginAttempt t.username, WEv.draftAcct t.username], true)
      | Except.ok b =>
        let o := if b then Outcome.SUCCESS else Outcome.FAILURE
        let (res1, tr1, exc1) := draftLoop spec rest (setResult res t.username o)
        (res1, WEv.loginAttempt t.username :: WEv.draftAcct t.username ::
          WEv.logout t.username :: tr1, exc1)

/-- The per-user loop of run_batched_execution_process: identical to the
draft loop except that after a successful login the worker itself calls
wait_until_market_open before execute_bulk_session. -/
def execLoop (spec : String → StepSpec) :
    List TaskTriple → ResultMap → ResultMap × List WEv × Bool
  | [], res => (res, [], false)
  | t :: rest, res =>
    match (spec t.username).login with
    | Except.error _ => (res, [WEv.loginAttempt t.username], true)
    | Except.ok false =>
      let (res1, tr1, exc1) := execLoop spec rest (setResult res t.username Outcome.LOGIN_FAILURE)
      (res1, WEv.loginAttempt t.username :: tr1, exc1)
    | Except.ok true =>
      match (spec t.username).action with
      | Except.error _ =>
        (res, [WEv.loginAttempt t.username, WEv.wait, WEv.execute t.username], true)
      | Except.ok b =>
        let o := if b then Outcome.SUCCESS else Outcome.FAILURE
        let (res1, tr1, exc1) := execLoop spec rest (setResult res t.username o)
        (res1, WEv.loginAttempt t.username :: WEv.wait :: WEv.execute t.username ::
          WEv.logout t.username :: tr1, exc1)

/-- The except handler of both workers: every task of the batch that has
no result yet is marked PROCESS_ERROR. -/
def markUnresolved (batch : List TaskTriple) (res : ResultMap) : ResultMap :=
  batch.foldl
    (fun m t => if hasResult m t.username then m else setResult m t.username Outcome.PROCESS_ERROR)
    res

/-- Embedding of run_batched_draft_process: returns the outcome map, the
event trace and whether quit_driver ran in the finally block.  An empty
batch returns before the trader is created, so nothing is quit. -/
def run_batched_draft_process (spec : String → StepSpec) (batch : List TaskTriple) :
    ResultMap × List WEv × Bool :=
  if batch.isEmpty then ([], [], false)
  else
    let (res, tr, exc) := draftLoop spec batch []
    let res1 := if exc then markUnresolved batch res else res
    (res1, tr, true)

/-- Embedding of run_batched_execution_process, with the same shape. -/
def run_batched_execution_process (spec : String → StepSpec) (batch : List TaskTriple) :
    ResultMap × List WEv × Bool :=
  if batch.isEmpty then ([], [], false)
  else
    let (res, tr, exc) := execLoop spec batch []
    let res1 := if exc then markUnresolved batch res else res
    (res1, tr, true)

/-! ## Orchestrator (orchestrator.main_orchestrator, chunk_tasks) -/

/-- The process-pool size of the orchestrator. -/
def MAX_PROCESSES : Nat := 8

/-- The slicing loop of chunk_tasks: successive slices of the given size.
Python would raise on a zero step, which chunk_tasks produces only for an
empty task list; the model returns no chunks then. -/
def chunkSlices : List TaskTriple → Nat → List (List TaskTriple)
  | [], _ => []
  | t :: ts, size =>
    if _h : size = 0 then []
    else (t :: ts).take size :: chunkSlices ((t :: ts).drop size) size
termination_by l _ => l.length
decreasing_by
  simp only [List.length_drop, List.length_cons]
  omega

/-- Embedding of orchestrator.chunk_tasks: ceil(len / numChunks)-sized
contiguous slices; a non-positive chunk count returns the whole list as
one chunk. -/
def chunk_tasks (tasks : List TaskTriple) (numChunks : Nat) : List (List TaskTriple) :=
  if numChunks = 0 then [tasks]
  else chunkSlices tasks ((tasks.length + numChunks - 1) / numChunks)

/-- The task-list construction of main_orchestrator: only the first
loaded credential is considered (user_credentials[:1]), and it is kept
only when its password is non-empty. -/
def buildTasks (creds : List Credential) : List TaskTriple :=
  (creds.take 1).filterMap fun c =>
    if c.password ≠ "" then
      some { username := c.username, password := c.password, logTag := "USER-" ++ c.username }
    else none

/-- Whether main_orchestrator proceeds past its two abort checks: some
credentials loaded and a non-empty task list built. -/
def orchestratorProceeds (creds : List Credential) : Bool :=
  !creds.isEmpty && !(buildTasks creds).isEmpty

/-- The trace of worker events of a whole main_orchestrator run: the
phase 1 worker traces, then the single orchestrator-level
wait_until_market_open call between the phases, then the phase 2 worker
traces.  Workers of a phase run in parallel; the trace concatenates
their events batch by batch, which is faithful for counting. -/
def main_orchestrator_trace (specD specE : String → StepSpec) (creds : List Credential) :
    List WEv :=
  if creds.isEmpty then []
  else
    let tasks := buildTasks creds
    if tasks.isEmpty then []
    else
      let batches := chunk_tasks tasks MAX_PROCESSES
      ((batches.map (fun b => (run_batched_draft_process specD b).2.1)).flatten)
        ++ [WEv.wait]
        ++ ((batches.map (fun b => (run_batched_execution_process specE b).2.1)).flatten)

/-! ## Bulk submission (stock_trader.StockTrader.execute_drafts) -/

/-- Browser environment for execute_drafts. -/
structure ExecEnv where
  driver : Bool
  draftsTabOk : Bool
  bulkSelectOk : Bool
  bulkSubmitOk : Bool
deriving Repr, DecidableEq

/-- Embedding of StockTrader.execute_drafts as its trace of worker-level
events: it clicks the drafts tab, selects all drafts, calls
wait_until_market_open itself, and then clicks the bulk submit button;
element failures raise into handlers that end the method. -/
def execute_drafts_trace (env : ExecEnv) : List WEv :=
  if !env.driver then []
  else if !env.draftsTabOk then []
  else if !env.bulkSelectOk then []
  else if !env.bulkSubmitOk then [WEv.wait]
  else [WEv.wait, WEv.execute "SYSTEM"]

/-! ## Helper lemmas for the sort comparison -/

theorem charListLE_total : ∀ as bs, charListLE as bs = true ∨ charListLE bs as = true
  | [], _ => Or.inl rfl
  | _ :: _, [] => Or.inr rfl
  | a :: as, b :: bs => by
    by_cases h1 : a.toNat < b.toNat
    · left; simp [charListLE, h1]
    · by_cases h2 : b.toNat < a.toNat
      · right; simp [charListLE, h2]
      · rcases charListLE_total as bs with h | h
        · left; simp [charListLE, h1, h2, h]
        · right; simp [charListLE, h1, h2, h]

theorem charListLE_trans : ∀ as bs cs, charListLE as bs = true → charListLE bs cs = true →
    charListLE as cs = true
  | [], _, _, _, _ => rfl
  | _ :: _, [], _, h1, _ => by simp [charListLE] at h1
  | _ :: _, _ :: _, [], _, h2 => by simp [charListLE] at h2
  | a :: as, b :: bs, c :: cs, h1, h2 => by
    simp only [charListLE] at h1 h2 ⊢
    split at h1
    next hab =>
      split at h2
      next hbc =>
        have hac : a.toNat < c.toNat := by omega
        simp [hac]
      next hbc =>
        split at h2
        next hcb => simp at h2
        next hcb =>
          have hac : a.toNat < c.toNat := by omega
          simp [hac]
    next hab =>
      split at h1
      next hba => simp at h1
      next hba =>
        split at h2
        next hbc =>
          have hac : a.toNat < c.toNat := by omega
          simp [hac]
        next hbc =>
          split at h2
          next hcb => simp at h2
          next hcb =>
            have hac1 : ¬ a.toNat < c.toNat := by omega
            have hac2 : ¬ c.toNat < a.toNat := by omega
            simp only [hac1, if_false, hac2]
            exact charListLE_trans as bs cs h1 h2

theorem nameLE_total (a b : String) : nameLE a b = true ∨ nameLE b a = true :=
  charListLE_total a.data b.data

theorem nameLE_trans (a b c : String) (h1 : nameLE a b = true) (h2 : nameLE b c = true) :
    nameLE a c = true :=
  charListLE_trans a.data b.data c.data h1 h2

theorem tradeLE_total (a b : TradeRecord) : tradeLE a b = true ∨ tradeLE b a = true := by
  unfold tradeLE
  rcases Nat.lt_trichotomy (sortKey a) (sortKey b) with h | h | h
  · right; simp [h]
  · rcases nameLE_total a.Name b.Name with hn | hn
    · left; simp [h, hn]
    · right; simp [h, hn]
  · left; simp [h]

theorem tradeLE_trans (a b c : TradeRecord) (h1 : tradeLE a b = true)
    (h2 : tradeLE b c = true) : tradeLE a c = true := by
  simp only [tradeLE, Bool.or_eq_true, Bool.and_eq_true, decide_eq_true_eq,
    beq_iff_eq] at h1 h2 ⊢
  rcases h1 with h1 | ⟨h1e, h1n⟩ <;> rcases h2 with h2 | ⟨h2e, h2n⟩
  · left; omega
  · left; omega
  · left; omega
  · right; exact ⟨by omega, nameLE_trans _ _ _ h1n h2n⟩

/-- C2: for a market-open wait with target instant T and the 10 second
grace period: strictly past T plus grace, the computed sleep is the time
to the same time-of-day tomorrow; between T and T plus grace inclusive
(including now equal to T), the sleep is zero; before T, the sleep is
exactly T minus now. -/
theorem wait_until_market_open_sleep_cases (now dayStart targetHour targetMinute : Int) :
    (now > target_time_today dayStart targetHour targetMinute + 10 →
      wait_until_market_open_sleep now dayStart targetHour targetMinute =
        target_time_today (dayStart + dayLength) targetHour targetMinute - now) ∧
    (target_time_today dayStart targetHour targetMinute ≤ now →
      now ≤ target_time_today dayStart targetHour targetMinute + 10 →
      wait_until_market_open_sleep now dayStart targetHour targetMinute = 0) ∧
    (now < target_time_today dayStart targetHour targetMinute →
      wait_until_market_open_sleep now dayStart targetHour targetMinute =
        target_time_today dayStart targetHour targetMinute - now) := by
  refine ⟨fun h1 => ?_, fun h1 h2 => ?_, fun h1 => ?_⟩ <;>
    · simp only [wait_until_market_open_sleep, target_time_today, grace_period,
        dayLength] at *
      split_ifs <;> omega

/-- Witness for C2 at target 08:45:00 of a day starting at instant 0. -/
theorem wait_until_market_open_sleep_cases_witness :
    wait_until_market_open_sleep 31511 0 8 45 =
      target_time_today (0 + dayLength) 8 45 - 31511 ∧
    wait_until_market_open_sleep 31500 0 8 45 = 0 ∧
    wait_until_market_open_sleep 31499 0 8 45 = target_time_today 0 8 45 - 31499 :=
  ⟨(wait_until_market_open_sleep_cases 31511 0 8 45).1 (by decide),
   (wait_until_market_open_sleep_cases 31500 0 8 45).2.1 (by decide) (by decide),
   (wait_until_market_open_sleep_cases 31499 0 8 45).2.2 (by decide)⟩

/-- C5: in a loaded trade list, later records never have a larger derived
sort key (so key 2 records precede key 1 records, which precede key 0
records), and records with equal keys have lexicographically
non-decreasing instrument names. -/
theorem read_trade_data_sorted (rows : List TradeRecord)
    (i j : Fin (read_trade_data rows).length) (hij : (i : Nat) < (j : Nat)) :
    sortKey ((read_trade_data rows).get j) ≤ sortKey ((read_trade_data rows).get i) ∧
    (sortKey ((read_trade_data rows).get i) = sortKey ((read_trade_data rows).get j) →
      nameLE ((read_trade_data rows).get i).Name ((read_trade_data rows).get j).Name = true) := by
  letI : IsTotal TradeRecord tradeRel := ⟨tradeLE_total⟩
  letI : IsTrans TradeRecord tradeRel := ⟨tradeLE_trans⟩
  have hs : List.Pairwise tradeRel (read_trade_data rows) :=
    List.sorted_insertionSort tradeRel ((rows.map cleanRecord).filter isValidRecord)
  have hrel : tradeRel ((read_trade_data rows).get i) ((read_trade_data rows).get j) :=
    List.pairwise_iff_get.mp hs i j hij
  simp only [tradeRel, tradeLE, Bool.or_eq_true, Bool.and_eq_true, decide_eq_true_eq,
    beq_iff_eq] at hrel
  rcases hrel with h | ⟨he, hn⟩
  · exact ⟨Nat.le_of_lt h, fun heq => absurd heq (by omega)⟩
  · exact ⟨Nat.le_of_eq he.symm, fun _ => hn⟩

/-- Witness for C5 at a concrete trade sheet. -/
theorem read_trade_data_sorted_witness :
    sortKey ((read_trade_data [⟨"b", "buy", 5, 5⟩, ⟨"a", "sell", 0, 0⟩]).get ⟨1, by decide⟩) ≤
      sortKey ((read_trade_data [⟨"b", "buy", 5, 5⟩, ⟨"a", "sell", 0, 0⟩]).get ⟨0, by decide⟩) ∧
    (sortKey ((read_trade_data [⟨"b", "buy", 5, 5⟩, ⟨"a", "sell", 0, 0⟩]).get ⟨0, by decide⟩) =
        sortKey ((read_trade_data [⟨"b", "buy", 5, 5⟩, ⟨"a", "sell", 0, 0⟩]).get ⟨1, by decide⟩) →
      nameLE ((read_trade_data [⟨"b", "buy", 5, 5⟩, ⟨"a", "sell", 0, 0⟩]).get
          ⟨0, by decide⟩).Name
        ((read_trade_data [⟨"b", "buy", 5, 5⟩, ⟨"a", "sell", 0, 0⟩]).get ⟨1, by decide⟩).Name =
        true) :=
  read_trade_data_sorted [⟨"b", "buy", 5, 5⟩, ⟨"a", "sell", 0, 0⟩]
    ⟨0, by decide⟩ ⟨1, by decide⟩ (by decide)

/-- C6: the loaded trade list contains only records that are valid after
normalization (direction exactly Buy or Sell, non-empty name), and the
skipped-record count read_trade_data logs equals the input count minus
the output count. -/
theorem read_trade_data_drops_invalid (rows : List TradeRecord) :
    (∀ r, r ∈ read_trade_data rows → isValidRecord r = true) ∧
    invalidCount rows = rows.length - (read_trade_data rows).length := by
  have hdef : read_trade_data rows =
      List.insertionSort tradeRel ((rows.map cleanRecord).filter isValidRecord) := rfl
  constructor
  · intro r hr
    rw [hdef] at hr
    have hmem : r ∈ (rows.map cleanRecord).filter isValidRecord :=
      (List.mem_insertionSort tradeRel).mp hr
    exact (List.mem_filter.mp hmem).2
  · have hlen : (read_trade_data rows).length =
        ((rows.map cleanRecord).filter isValidRecord).length := by
      rw [hdef, List.length_insertionSort]
    rw [invalidCount, hlen]

/-- Witness for C6 at a concrete trade sheet with one invalid record. -/
theorem read_trade_data_drops_invalid_witness :
    isValidRecord ⟨"A", "Sell", 0, 0⟩ = true ∧
    invalidCount [⟨"b", "x", 5, 5⟩, ⟨"a", "sell", 0, 0⟩] =
      ([⟨"b", "x", 5, 5⟩, ⟨"a", "sell", 0, 0⟩] : List TradeRecord).length -
        (read_trade_data [⟨"b", "x", 5, 5⟩, ⟨"a", "sell", 0, 0⟩]).length :=
  ⟨(read_trade_data_drops_invalid [⟨"b", "x", 5, 5⟩, ⟨"a", "sell", 0, 0⟩]).1
      ⟨"A", "Sell", 0, 0⟩ (by decide),
   (read_trade_data_drops_invalid [⟨"b", "x", 5, 5⟩, ⟨"a", "sell", 0, 0⟩]).2⟩

/-- C9: contrary to the claim, the log sink is not append-only: the file
is opened with mode w, so after a second log call the file holds only the
second line and the first timestamped, tag-prefixed line is gone. -/
theorem logWrite_not_append_only :
    logWrite (logWrite [] (formatLogLine "2025-01-01 08:00:00" "A" "first"))
        (formatLogLine "2025-01-01 08:00:01" "B" "second") =
      [formatLogLine "2025-01-01 08:00:01" "B" "second"] ∧
    formatLogLine "2025-01-01 08:00:00" "A" "first" ∉
      logWrite (logWrite [] (formatLogLine "2025-01-01 08:00:00" "A" "first"))
        (formatLogLine "2025-01-01 08:00:01" "B" "second") ∧
    logWrite (logWrite [] (formatLogLine "2025-01-01 08:00:00" "A" "first"))
        (formatLogLine "2025-01-01 08:00:01" "B" "second") ≠
      appendWrite (appendWrite [] (formatLogLine "2025-01-01 08:00:00" "A" "first"))
        (formatLogLine "2025-01-01 08:00:01" "B" "second") := by
  refine ⟨rfl, ?_, ?_⟩ <;> decide

/-- C3: contrary to the claim, main_orchestrator builds its task list
from user_credentials sliced to its first element only: a second loaded
account with a non-empty password is not included, and when only the
first account has an empty password the run aborts even though a valid
account was loaded. -/
theorem buildTasks_first_credential_only :
    buildTasks [⟨"alice", "pa"⟩, ⟨"bob", "pb"⟩] =
      [{ username := "alice", password := "pa", logTag := "USER-alice" }] ∧
    (buildTasks [⟨"alice", "pa"⟩, ⟨"bob", "pb"⟩]).all
      (fun t => !(t.username == "bob")) = true ∧
    buildTasks [⟨"alice", ""⟩, ⟨"bob", "pb"⟩] = [] ∧
    orchestratorProceeds [⟨"alice", ""⟩, ⟨"bob", "pb"⟩] = false := by
  refine ⟨?_, ?_, ?_, ?_⟩ <;> decide

/-- C4: contrary to the claim, a login attempt in which neither the
dashboard marker nor the change-password modal appears within its wait
returns True: the modal-check helper swallows its own TimeoutException,
so the except branch of login that would return False is unreachable. -/
theorem login_true_without_markers :
    ((⟨true, true, "ab3x", true, true, false, false, false⟩ : LoginEnv).dashboardAppears
      = false) ∧
    ((⟨true, true, "ab3x", true, true, false, false, false⟩ : LoginEnv).modalAppears
      = false) ∧
    (login ⟨true, true, "ab3x", true, true, false, false, false⟩).1 = true := by
  refine ⟨rfl, rfl, ?_⟩
  decide

/-- C10: when the CAPTCHA solver returns an empty string, the login
attempt returns False at once: no CAPTCHA text is typed and the login
button is not clicked. -/
theorem login_empty_captcha (env : LoginEnv) (h : env.captchaText = "") :
    (login env).1 = false ∧
    UIAction.typeCaptcha ∉ (login env).2 ∧
    UIAction.clickLogin ∉ (login env).2 := by
  rcases env with ⟨d, cf, ct, ci, lb, da, ma, cc⟩
  simp only at h
  subst h
  cases d <;> cases cf <;> simp [login]

/-- Witness for C10 at a concrete environment. -/
theorem login_empty_captcha_witness :
    (login ⟨true, true, "", true, true, true, false, false⟩).1 = false ∧
    UIAction.typeCaptcha ∉ (login ⟨true, true, "", true, true, true, false, false⟩).2 ∧
    UIAction.clickLogin ∉ (login ⟨true, true, "", true, true, true, false, false⟩).2 :=
  login_empty_captcha ⟨true, true, "", true, true, true, false, false⟩ rfl

/-- C8: in the drafting loop of an account, create_draft never lets a
per-trade failure escape, and with a live driver the modal-close step is
attempted after every trade, so every trade of the list is processed. -/
theorem create_draft_isolates_failures (trades : List TradeRecord) (envs : Nat → DraftEnv)
    (i : Nat) (h : ∀ j, (envs j).driver = true) :
    (runWorkflowDraftLoop envs trades i).length = trades.length ∧
    ∀ r ∈ runWorkflowDraftLoop envs trades i, r.raised = false ∧ r.closeAttempted = true := by
  induction trades generalizing i with
  | nil => simp [runWorkflowDraftLoop]
  | cons t ts ih =>
    have hd := h i
    have hcd : create_draft t (envs i) =
        { raised := false, drafted := draftBodyOk t (envs i), closeAttempted := true,
          closeSucceeded := (envs i).closeOk } := by
      unfold create_draft
      rw [hd]
      simp
    rcases ih (i + 1) with ⟨hl, hm⟩
    have hstep : runWorkflowDraftLoop envs (t :: ts) i =
        ({ raised := false, drafted := draftBodyOk t (envs i), closeAttempted := true,
           closeSucceeded := (envs i).closeOk } : DraftResult) ::
          runWorkflowDraftLoop envs ts (i + 1) := by
      simp [runWorkflowDraftLoop, hcd]
    constructor
    · rw [hstep]
      simp [hl]
    · intro r hr
      rw [hstep] at hr
      rcases List.mem_cons.mp hr with hr | hr
      · rw [hr]
        exact ⟨rfl, rfl⟩
      · exact hm r hr

/-- Witness for C8 on a one-trade list whose modal element lookups fail. -/
theorem create_draft_isolates_failures_witness :
    (runWorkflowDraftLoop
      (fun _ => ⟨true, false, false, false, false, false, false, false, false, false,
        false, false⟩)
      [⟨"A", "Buy", 0, 5⟩] 0).length = 1 ∧
    ∀ r ∈ runWorkflowDraftLoop
      (fun _ => (⟨true, false, false, false, false, false, false, false, false, false,
        false, false⟩ : DraftEnv))
      ([⟨"A", "Buy", 0, 5⟩] : List TradeRecord) 0, r.raised = false ∧ r.closeAttempted = true :=
  create_draft_isolates_failures [⟨"A", "Buy", 0, 5⟩]
    (fun _ => ⟨true, false, false, false, false, false, false, false, false, false,
      false, false⟩)
    0 (fun _ => rfl)

/-! ## Helper lemmas for the results dictionary -/

theorem hasResult_cons (p : String × Outcome) (m : ResultMap) (u : String) :
    hasResult (p :: m) u = ((p.1 == u) || hasResult m u) := by
  simp [hasResult]

theorem hasResult_append (m1 m2 : ResultMap) (u : String) :
    hasResult (m1 ++ m2) u = (hasResult m1 u || hasResult m2 u) := by
  simp [hasResult, List.any_append]

theorem hasResult_single (v : String) (o : Outcome) (u : String) :
    hasResult [(v, o)] u = (v == u) := by
  simp [hasResult]

theorem outcomeCount_cons (p : String × Outcome) (m : ResultMap) (u : String) :
    outcomeCount (p :: m) u = (if p.1 == u then 1 else 0) + outcomeCount m u := by
  simp only [outcomeCount, List.filter_cons]
  split <;> simp [Nat.add_comm]

theorem outcomeCount_append (m1 m2 : ResultMap) (u : String) :
    outcomeCount (m1 ++ m2) u = outcomeCount m1 u + outcomeCount m2 u := by
  simp [outcomeCount, List.filter_append]

theorem outcomeCount_single (v : String) (o : Outcome) (u : String) :
    outcomeCount [(v, o)] u = if v == u then 1 else 0 := by
  rw [show ([(v, o)] : ResultMap) = (v, o) :: [] from rfl, outcomeCount_cons]
  simp [outcomeCount]

theorem outcomeCount_zero_of_not_has : ∀ (m : ResultMap) (u : String),
    hasResult m u = false → outcomeCount m u = 0
  | [], _, _ => rfl
  | p :: m, u, h => by
    rw [hasResult_cons] at h
    rcases Bool.or_eq_false_iff.mp h with ⟨h1, h2⟩
    rw [outcomeCount_cons, h1, outcomeCount_zero_of_not_has m u h2]
    simp

theorem keys_map_overwrite (m : ResultMap) (v : String) (o : Outcome) :
    (m.map (fun p => if p.1 == v then (v, o) else p)).map (fun p => p.1) =
      m.map (fun p => p.1) := by
  induction m with
  | nil => rfl
  | cons p m ih =>
    rw [List.map_cons, List.map_cons, List.map_cons, ih]
    by_cases hp : p.1 == v
    · have hv : p.1 = v := eq_of_beq hp
      simp [hp, hv]
    · simp [hp]

theorem keys_setResult (m : ResultMap) (v : String) (o : Outcome) :
    (setResult m v o).map (fun p => p.1) =
      if hasResult m v then m.map (fun p => p.1) else m.map (fun p => p.1) ++ [v] := by
  by_cases h : hasResult m v
  · have he : setResult m v o = m.map (fun p => if p.1 == v then (v, o) else p) := by
      simp [setResult, h]
    rw [he, keys_map_overwrite, if_pos h]
  · have he : setResult m v o = m ++ [(v, o)] := by
      simp [setResult, h]
    rw [he, if_neg h, List.map_append]
    rfl

theorem hasResult_keys : ∀ (m : ResultMap) (u : String),
    hasResult m u = (m.map (fun p => p.1)).any (fun k => k == u)
  | [], _ => rfl
  | p :: m, u => by
    rw [hasResult_cons, List.map_cons, List.any_cons, hasResult_keys m u]

theorem hasResult_setResult (m : ResultMap) (v : String) (o : Outcome) (u : String) :
    hasResult (setResult m v o) u = (hasResult m u || (v == u)) := by
  by_cases h : hasResult m v
  · rw [hasResult_keys, keys_setResult]
    simp only [h, if_true]
    rw [← hasResult_keys]
    by_cases hvu : v == u
    · have hv : v = u := eq_of_beq hvu
      subst hv
      simp [h]
    · simp [hvu]
  · simp [setResult, h, hasResult_append, hasResult_single]

theorem setResult_of_not_has (m : ResultMap) (v : String) (o : Outcome)
    (h : hasResult m v = false) : setResult m v o = m ++ [(v, o)] := by
  simp [setResult, h]

/-! ## Step equations and invariants of the batch worker loops -/

theorem draftLoop_cons_err (spec : String → StepSpec) (t : TaskTriple) (rest : List TaskTriple)
    (res : ResultMap) (h : (spec t.username).login = Except.error ()) :
    draftLoop spec (t :: rest) res = (res, [WEv.loginAttempt t.username], true) := by
  simp [draftLoop, h]

theorem draftLoop_cons_loginFail (spec : String → StepSpec) (t : TaskTriple)
    (rest : List TaskTriple) (res : ResultMap)
    (h : (spec t.username).login = Except.ok false) :
    draftLoop spec (t :: rest) res =
      ((draftLoop spec rest (setResult res t.username Outcome.LOGIN_FAILURE)).1,
       WEv.loginAttempt t.username ::
         (draftLoop spec rest (setResult res t.username Outcome.LOGIN_FAILURE)).2.1,
       (draftLoop spec rest (setResult res t.username Outcome.LOGIN_FAILURE)).2.2) := by
  rcases he : draftLoop spec rest (setResult res t.username Outcome.LOGIN_FAILURE) with ⟨a, b, c⟩
  simp [draftLoop, h, he]

theorem draftLoop_cons_actionErr (spec : String → StepSpec) (t : TaskTriple)
    (rest : List TaskTriple) (res : ResultMap)
    (h1 : (spec t.username).login = Except.ok true)
    (h2 : (spec t.username).action = Except.error ()) :
    draftLoop spec (t :: rest) res =
      (res, [WEv.loginAttempt t.username, WEv.draftAcct t.username], true) := by
  simp [draftLoop, h1, h2]

theorem draftLoop_cons_action (spec : String → StepSpec) (t : TaskTriple)
    (rest : List TaskTriple) (res : ResultMap) (b : Bool)
    (h1 : (spec t.username).login = Except.ok true)
    (h2 : (spec t.username).action = Except.ok b) :
    draftLoop spec (t :: rest) res =
      ((draftLoop spec rest
          (setResult res t.username (if b then Outcome.SUCCESS else Outcome.FAILURE))).1,
       WEv.loginAttempt t.username :: WEv.draftAcct t.username :: WEv.logout t.username ::
         (draftLoop spec rest
           (setResult res t.username (if b then Outcome.SUCCESS else Outcome.FAILURE))).2.1,
       (draftLoop spec rest
         (setResult res t.username (if b then Outcome.SUCCESS else Outcome.FAILURE))).2.2) := by
  rcases he : draftLoop spec rest
    (setResult res t.username (if b then Outcome.SUCCESS else Outcome.FAILURE)) with ⟨a, c, d⟩
  simp [draftLoop, h1, h2, he]

theorem execLoop_cons_err (spec : String → StepSpec) (t : TaskTriple) (rest : List TaskTriple)
    (res : ResultMap) (h : (spec t.username).login = Except.error ()) :
    execLoop spec (t :: rest) res = (res, [WEv.loginAttempt t.username], true) := by
  simp [execLoop, h]

theorem execLoop_cons_loginFail (spec : String → StepSpec) (t : TaskTriple)
    (rest : List TaskTriple) (res : ResultMap)
    (h : (spec t.username).login = Except.ok false) :
    execLoop spec (t :: rest) res =
      ((execLoop spec rest (setResult res t.username Outcome.LOGIN_FAILURE)).1,
       WEv.loginAttempt t.username ::
         (execLoop spec rest (setResult res t.username Outcome.LOGIN_FAILURE)).2.1,
       (execLoop spec rest (setResult res t.username Outcome.LOGIN_FAILURE)).2.2) := by
  rcases he : execLoop spec rest (setResult res t.username Outcome.LOGIN_FAILURE) with ⟨a, b, c⟩
  simp [execLoop, h, he]

theorem execLoop_cons_actionErr (spec : String → StepSpec) (t : TaskTriple)
    (rest : List TaskTriple) (res : ResultMap)
    (h1 : (spec t.username).login = Except.ok true)
    (h2 : (spec t.username).action = Except.error ()) :
    execLoop spec (t :: rest) res =
      (res, [WEv.loginAttempt t.username, WEv.wait, WEv.execute t.username], true) := by
  simp [execLoop, h1, h2]

theorem execLoop_cons_action (spec : String → StepSpec) (t : TaskTriple)
    (rest : List TaskTriple) (res : ResultMap) (b : Bool)
    (h1 : (spec t.username).login = Except.ok true)
    (h2 : (spec t.username).action = Except.ok b) :
    execLoop spec (t :: rest) res =
      ((execLoop spec rest
          (setResult res t.username (if b then Outcome.SUCCESS else Outcome.FAILURE))).1,
       WEv.loginAttempt t.username :: WEv.wait :: WEv.execute t.username ::
         WEv.logout t.username ::
         (execLoop spec rest
           (setResult res t.username (if b then Outcome.SUCCESS else Outcome.FAILURE))).2.1,
       (execLoop spec rest
         (setResult res t.username (if b then Outcome.SUCCESS else Outcome.FAILURE))).2.2) := by
  rcases he : execLoop spec rest
    (setResult res t.username (if b then Outcome.SUCCESS else Outcome.FAILURE)) with ⟨a, c, d⟩
  simp [execLoop, h1, h2, he]

theorem execLoop_eq_draftLoop (spec : String → StepSpec) : ∀ (l : List TaskTriple)
    (res : ResultMap),
    (execLoop spec l res).1 = (draftLoop spec l res).1 ∧
    (execLoop spec l res).2.2 = (draftLoop spec l res).2.2
  | [], _ => ⟨rfl, rfl⟩
  | t :: rest, res => by
    rcases hl : (spec t.username).login with e | b
    · cases e
      rw [draftLoop_cons_err spec t rest res hl, execLoop_cons_err spec t rest res hl]
      exact ⟨rfl, rfl⟩
    · cases b with
      | false =>
        rw [draftLoop_cons_loginFail spec t rest res hl, execLoop_cons_loginFail spec t rest res hl]
        exact execLoop_eq_draftLoop spec rest (setResult res t.username Outcome.LOGIN_FAILURE)
      | true =>
        rcases ha : (spec t.username).action with e | b2
        · cases e
          rw [draftLoop_cons_actionErr spec t rest res hl ha,
            execLoop_cons_actionErr spec t rest res hl ha]
          exact ⟨rfl, rfl⟩
        · rw [draftLoop_cons_action spec t rest res b2 hl ha,
            execLoop_cons_action spec t rest res b2 hl ha]
          exact execLoop_eq_draftLoop spec rest
            (setResult res t.username (if b2 then Outcome.SUCCESS else Outcome.FAILURE))

theorem draftLoop_mono (spec : String → StepSpec) : ∀ (l : List TaskTriple) (res : ResultMap)
    (u : String), hasResult res u = true → hasResult (draftLoop spec l res).1 u = true
  | [], _, _, h => h
  | t :: rest, res, u, h => by
    rcases hl : (spec t.username).login with e | b
    · cases e
      rw [draftLoop_cons_err spec t rest res hl]
      exact h
    · cases b with
      | false =>
        rw [draftLoop_cons_loginFail spec t rest res hl]
        exact draftLoop_mono spec rest _ u (by simp [hasResult_setResult, h])
      | true =>
        rcases ha : (spec t.username).action with e | b2
        · cases e
          rw [draftLoop_cons_actionErr spec t rest res hl ha]
          exact h
        · rw [draftLoop_cons_action spec t rest res b2 hl ha]
          exact draftLoop_mono spec rest _ u (by simp [hasResult_setResult, h])

theorem draftLoop_no_exc (spec : String → StepSpec) : ∀ (l : List TaskTriple) (res : ResultMap),
    (draftLoop spec l res).2.2 = false →
    ∀ t ∈ l, hasResult (draftLoop spec l res).1 t.username = true
  | [], _, _, t, ht => absurd ht (List.not_mem_nil t)
  | s :: rest, res, hx, t, ht => by
    rcases hl : (spec s.username).login with e | b
    · cases e
      rw [draftLoop_cons_err spec s rest res hl] at hx
      simp at hx
    · cases b with
      | false =>
        rw [draftLoop_cons_loginFail spec s rest res hl] at hx ⊢
        rcases List.mem_cons.mp ht with h1 | h1
        · subst h1
          exact draftLoop_mono spec rest _ _ (by simp [hasResult_setResult])
        · exact draftLoop_no_exc spec rest _ hx t h1
      | true =>
        rcases ha : (spec s.username).action with e | b2
        · cases e
          rw [draftLoop_cons_actionErr spec s rest res hl ha] at hx
          simp at hx
        · rw [draftLoop_cons_action spec s rest res b2 hl ha] at hx ⊢
          rcases List.mem_cons.mp ht with h1 | h1
          · subst h1
            exact draftLoop_mono spec rest _ _ (by simp [hasResult_setResult])
          · exact draftLoop_no_exc spec rest _ hx t h1

theorem draftLoop_count (spec : String → StepSpec) (l : List TaskTriple) :
    ∀ (res : ResultMap) (u : String), (l.map (fun t => t.username)).Nodup →
    (∀ t ∈ l, hasResult res t.username = false) →
    outcomeCount (draftLoop spec l res).1 u =
      outcomeCount res u +
        (if (hasResult (draftLoop spec l res).1 u && !hasResult res u) then 1 else 0) := by
  induction l with
  | nil =>
    intro res u _ _
    simp [draftLoop]
  | cons t rest ih =>
    intro res u hnd hdisj
    rw [List.map_cons, List.nodup_cons] at hnd
    have htnotin : t.username ∉ rest.map (fun s => s.username) := hnd.1
    have hndr : (rest.map (fun s => s.username)).Nodup := hnd.2
    have hres_t : hasResult res t.username = false := hdisj t (List.mem_cons_self t rest)
    have step : ∀ (o : Outcome),
        outcomeCount (draftLoop spec rest (setResult res t.username o)).1 u =
          outcomeCount res u +
            (if (hasResult (draftLoop spec rest (setResult res t.username o)).1 u &&
                !hasResult res u) then 1 else 0) := by
      intro o
      have hres1 : setResult res t.username o = res ++ [(t.username, o)] :=
        setResult_of_not_has _ _ _ hres_t
      have hdisj1 : ∀ s ∈ rest, hasResult (setResult res t.username o) s.username = false := by
        intro s hs
        rw [hres1, hasResult_append, hasResult_single]
        have hw : hasResult res s.username = false := hdisj s (List.mem_cons_of_mem _ hs)
        have hne : (t.username == s.username) = false := by
          apply Bool.eq_false_iff.mpr
          intro hbeq
          have hmem : s.username ∈ rest.map (fun x => x.username) :=
            List.mem_map_of_mem (fun x => x.username) hs
          rw [← eq_of_beq hbeq] at hmem
          exact htnotin hmem
        rw [hw, hne]
        rfl
      have ihs := ih (setResult res t.username o) u hndr hdisj1
      rw [ihs]
      by_cases hu : (t.username == u)
      · have h1 : hasResult (setResult res t.username o) u = true := by
          rw [hres1, hasResult_append, hasResult_single, hu]
          simp
        have h2 : hasResult (draftLoop spec rest (setResult res t.username o)).1 u = true :=
          draftLoop_mono spec rest _ u h1
        have h3 : hasResult res u = false := by
          rw [← eq_of_beq hu]
          exact hres_t
        rw [h1, h2, h3, hres1, outcomeCount_append, outcomeCount_single, if_pos hu]
        simp
      · have hne2 : (t.username == u) = false := Bool.eq_false_iff.mpr hu
        have h1 : hasResult (setResult res t.username o) u = hasResult res u := by
          rw [hres1, hasResult_append, hasResult_single, hne2, Bool.or_false]
        have h4 : outcomeCount (setResult res t.username o) u = outcomeCount res u := by
          rw [hres1, outcomeCount_append, outcomeCount_single, if_neg hu]
          simp
        rw [h4, h1]
    rcases hl : (spec t.username).login with e | b
    · cases e
      rw [draftLoop_cons_err spec t rest res hl]
      simp
    · cases b with
      | false =>
        rw [draftLoop_cons_loginFail spec t rest res hl]
        exact step Outcome.LOGIN_FAILURE
      | true =>
        rcases ha : (spec t.username).action with e | b2
        · cases e
          rw [draftLoop_cons_actionErr spec t rest res hl ha]
          simp
        · rw [draftLoop_cons_action spec t rest res b2 hl ha]
          exact step (if b2 then Outcome.SUCCESS else Outcome.FAILURE)

theorem lookup_append_single (u v : String) (o : Outcome) : ∀ (m : ResultMap),
    List.lookup u (m ++ [(v, o)]) =
      if ((v == u) && !hasResult m u) then some o else List.lookup u m
  | [] => by
    by_cases h : u = v
    · subst h
      simp [List.lookup, hasResult]
    · have h1 : (u == v) = false := beq_eq_false_iff_ne.mpr h
      have h2 : (v == u) = false := beq_eq_false_iff_ne.mpr (Ne.symm h)
      simp [List.lookup, h1, h2, hasResult]
  | (k, b) :: m => by
    rw [List.cons_append]
    by_cases hk : u = k
    · subst hk
      have h1 : hasResult ((u, b) :: m) u = true := by
        rw [hasResult_cons, beq_self_eq_true, Bool.true_or]
      simp [List.lookup, h1]
    · have h1 : (u == k) = false := beq_eq_false_iff_ne.mpr hk
      have h2 : (k == u) = false := beq_eq_false_iff_ne.mpr (Ne.symm hk)
      simp only [List.lookup, h1, hasResult_cons, h2, Bool.false_or]
      exact lookup_append_single u v o m

theorem markUnresolved_cons (t : TaskTriple) (rest : List TaskTriple) (res : ResultMap) :
    markUnresolved (t :: rest) res =
      markUnresolved rest
        (if hasResult res t.username then res
         else setResult res t.username Outcome.PROCESS_ERROR) := rfl

theorem markUnresolved_other (u : String) : ∀ (l : List TaskTriple) (res : ResultMap),
    (∀ t ∈ l, t.username ≠ u) →
    outcomeCount (markUnresolved l res) u = outcomeCount res u ∧
    hasResult (markUnresolved l res) u = hasResult res u ∧
    lookupResult (markUnresolved l res) u = lookupResult res u
  | [], _, _ => ⟨rfl, rfl, rfl⟩
  | t :: rest, res, hne => by
    rw [markUnresolved_cons]
    by_cases h : hasResult res t.username
    · rw [if_pos h]
      exact markUnresolved_other u rest res (fun s hs => hne s (List.mem_cons_of_mem _ hs))
    · rw [if_neg h, setResult_of_not_has _ _ _ (Bool.eq_false_iff.mpr h)]
      have ht : t.username ≠ u := hne t (List.mem_cons_self t rest)
      have hbeq : (t.username == u) = false := by
        apply Bool.eq_false_iff.mpr
        intro hb
        exact ht (eq_of_beq hb)
      rcases markUnresolved_other u rest (res ++ [(t.username, Outcome.PROCESS_ERROR)])
        (fun s hs => hne s (List.mem_cons_of_mem _ hs)) with ⟨i1, i2, i3⟩
      refine ⟨?_, ?_, ?_⟩
      · rw [i1, outcomeCount_append, outcomeCount_single, if_neg (by simp [hbeq])]
        simp
      · rw [i2, hasResult_append, hasResult_single, hbeq, Bool.or_false]
      · rw [i3]
        show List.lookup u (res ++ [(t.username, Outcome.PROCESS_ERROR)]) = lookupResult res u
        rw [lookup_append_single, if_neg (by simp [hbeq])]
        rfl

theorem markUnresolved_count : ∀ (l : List TaskTriple) (res : ResultMap),
    (l.map (fun t => t.username)).Nodup →
    ∀ t ∈ l,
      outcomeCount (markUnresolved l res) t.username =
        outcomeCount res t.username + (if hasResult res t.username then 0 else 1)
  | [], _, _, t, ht => absurd ht (List.not_mem_nil t)
  | s :: rest, res, hnd, t, ht => by
    rw [List.map_cons, List.nodup_cons] at hnd
    rw [markUnresolved_cons]
    rcases List.mem_cons.mp ht with h1 | h1
    · subst h1
      have hother : ∀ s2 ∈ rest, s2.username ≠ t.username := by
        intro s2 hs2 he
        have hmem : s2.username ∈ rest.map (fun x => x.username) :=
          List.mem_map_of_mem (fun x => x.username) hs2
        rw [he] at hmem
        exact hnd.1 hmem
      by_cases h : hasResult res t.username
      · rw [if_pos h, (markUnresolved_other t.username rest res hother).1, if_pos h]
        simp
      · rw [if_neg h, setResult_of_not_has _ _ _ (Bool.eq_false_iff.mpr h),
          (markUnresolved_other t.username rest _ hother).1, outcomeCount_append,
          outcomeCount_single, if_neg h]
        simp
    · have hsne : s.username ≠ t.username := by
        intro he
        have hmem : t.username ∈ rest.map (fun x => x.username) :=
          List.mem_map_of_mem (fun x => x.username) h1
        rw [← he] at hmem
        exact hnd.1 hmem
      have hbeq : (s.username == t.username) = false := by
        apply Bool.eq_false_iff.mpr
        intro hb
        exact hsne (eq_of_beq hb)
      by_cases h : hasResult res s.username
      · rw [if_pos h]
        exact markUnresolved_count rest res hnd.2 t h1
      · rw [if_neg h, setResult_of_not_has _ _ _ (Bool.eq_false_iff.mpr h)]
        have hres2 : hasResult (res ++ [(s.username, Outcome.PROCESS_ERROR)]) t.username =
            hasResult res t.username := by
          rw [hasResult_append, hasResult_single, hbeq, Bool.or_false]
        have hcnt : outcomeCount (res ++ [(s.username, Outcome.PROCESS_ERROR)]) t.username =
            outcomeCount res t.username := by
          rw [outcomeCount_append, outcomeCount_single, if_neg (by simp [hbeq])]
          simp
        rw [markUnresolved_count rest _ hnd.2 t h1, hres2, hcnt]

theorem markUnresolved_marks : ∀ (l : List TaskTriple) (res : ResultMap),
    (l.map (fun t => t.username)).Nodup →
    ∀ t ∈ l, hasResult res t.username = false →
      lookupResult (markUnresolved l res) t.username = some Outcome.PROCESS_ERROR
  | [], _, _, t, ht, _ => absurd ht (List.not_mem_nil t)
  | s :: rest, res, hnd, t, ht, hres => by
    rw [List.map_cons, List.nodup_cons] at hnd
    rw [markUnresolved_cons]
    rcases List.mem_cons.mp ht with h1 | h1
    · subst h1
      rw [if_neg (by simp [hres]), setResult_of_not_has _ _ _ hres]
      have hother : ∀ s2 ∈ rest, s2.username ≠ t.username := by
        intro s2 hs2 he
        have hmem : s2.username ∈ rest.map (fun x => x.username) :=
          List.mem_map_of_mem (fun x => x.username) hs2
        rw [he] at hmem
        exact hnd.1 hmem
      rw [(markUnresolved_other t.username rest _ hother).2.2]
      show List.lookup t.username (res ++ [(t.username, Outcome.PROCESS_ERROR)]) =
        some Outcome.PROCESS_ERROR
      rw [lookup_append_single]
      simp [hres]
    · have hbeq : (s.username == t.username) = false := by
        apply Bool.eq_false_iff.mpr
        intro hb
        have hmem : t.username ∈ rest.map (fun x => x.username) :=
          List.mem_map_of_mem (fun x => x.username) h1
        rw [← eq_of_beq hb] at hmem
        exact hnd.1 hmem
      by_cases h : hasResult res s.username
      · rw [if_pos h]
        exact markUnresolved_marks rest res hnd.2 t h1 hres
      · rw [if_neg h, setResult_of_not_has _ _ _ (Bool.eq_false_iff.mpr h)]
        have hres2 : hasResult (res ++ [(s.username, Outcome.PROCESS_ERROR)]) t.username =
            false := by
          rw [hasResult_append, hasResult_single, hbeq, Bool.or_false, hres]
        exact markUnresolved_marks rest _ hnd.2 t h1 hres2

/-- C7: for a non-empty batch of distinct accounts, in either phase: the
finally block of the worker always quits the driver; every account of
the batch receives exactly one outcome in the returned mapping; and when
an uncaught exception aborts the loop, every account not yet resolved at
that point is marked PROCESS_ERROR. -/
theorem batch_worker_outcomes (spec : String → StepSpec) (batch : List TaskTriple)
    (hnd : (batch.map (fun t => t.username)).Nodup) (hne : batch ≠ []) :
    ((run_batched_draft_process spec batch).2.2 = true ∧
      (run_batched_execution_process spec batch).2.2 = true) ∧
    (∀ t ∈ batch,
      outcomeCount (run_batched_draft_process spec batch).1 t.username = 1 ∧
      outcomeCount (run_batched_execution_process spec batch).1 t.username = 1) ∧
    ((draftLoop spec batch []).2.2 = true →
      ∀ t ∈ batch, hasResult (draftLoop spec batch []).1 t.username = false →
        lookupResult (run_batched_draft_process spec batch).1 t.username =
          some Outcome.PROCESS_ERROR) ∧
    ((execLoop spec batch []).2.2 = true →
      ∀ t ∈ batch, hasResult (execLoop spec batch []).1 t.username = false →
        lookupResult (run_batched_execution_process spec batch).1 t.username =
          some Outcome.PROCESS_ERROR) := by
  have hempty : batch.isEmpty = false := by
    cases batch with
    | nil => exact absurd rfl hne
    | cons a l => rfl
  rcases hd : draftLoop spec batch [] with ⟨r0, trD, x0⟩
  rcases hx : execLoop spec batch [] with ⟨re, trE, xe⟩
  have heq := execLoop_eq_draftLoop spec batch []
  rw [hd, hx] at heq
  have hre : re = r0 := heq.1
  have hxe : xe = x0 := heq.2
  subst hre
  subst hxe
  have hrunD : run_batched_draft_process spec batch =
      ((if xe then markUnresolved batch re else re), trD, true) := by
    simp [run_batched_draft_process, hempty, hd]
  have hrunE : run_batched_execution_process spec batch =
      ((if xe then markUnresolved batch re else re), trE, true) := by
    simp [run_batched_execution_process, hempty, hx]
  have hbase : ∀ t ∈ batch, outcomeCount re t.username =
      (if hasResult re t.username then 1 else 0) := by
    intro t ht
    have hc := draftLoop_count spec batch [] t.username hnd (fun s _ => rfl)
    rw [hd] at hc
    have h0 : outcomeCount ([] : ResultMap) t.username = 0 := rfl
    have h1 : hasResult ([] : ResultMap) t.username = false := rfl
    rw [h0, h1] at hc
    simpa using hc
  have hcount : ∀ t ∈ batch,
      outcomeCount (if xe then markUnresolved batch re else re) t.username = 1 := by
    intro t ht
    cases xe with
    | false =>
      have hnx : (draftLoop spec batch []).2.2 = false := by
        rw [hd]
      have hhas := draftLoop_no_exc spec batch [] hnx t ht
      rw [hd] at hhas
      have hr : (if (false : Bool) then markUnresolved batch re else re) = re := rfl
      rw [hr, hbase t ht, hhas]
      rfl
    | true =>
      have hr : (if (true : Bool) then markUnresolved batch re else re) =
          markUnresolved batch re := rfl
      rw [hr, markUnresolved_count batch re hnd t ht, hbase t ht]
      cases hh : hasResult re t.username <;> simp [hh]
  refine ⟨⟨?_, ?_⟩, ?_, ?_, ?_⟩
  · rw [hrunD]
  · rw [hrunE]
  · intro t ht
    constructor
    · rw [hrunD]
      exact hcount t ht
    · rw [hrunE]
      exact hcount t ht
  · intro hxc t ht hhr
    have hx0 : xe = true := hxc
    have hhr0 : hasResult re t.username = false := hhr
    subst hx0
    rw [hrunD]
    exact markUnresolved_marks batch re hnd t ht hhr0
  · intro hxc t ht hhr
    have hx0 : xe = true := hxc
    have hhr0 : hasResult re t.username = false := hhr
    subst hx0
    rw [hrunE]
    exact markUnresolved_marks batch re hnd t ht hhr0

/-- Witness for C7 on a concrete two-account batch. -/
theorem batch_worker_outcomes_witness :
    ((run_batched_draft_process (fun _ => ⟨Except.ok true, Except.ok true⟩)
        [⟨"u1", "p1", "T1"⟩, ⟨"u2", "p2", "T2"⟩]).2.2 = true ∧
      (run_batched_execution_process (fun _ => ⟨Except.ok true, Except.ok true⟩)
        [⟨"u1", "p1", "T1"⟩, ⟨"u2", "p2", "T2"⟩]).2.2 = true) ∧
    (outcomeCount (run_batched_draft_process (fun _ => ⟨Except.ok true, Except.ok true⟩)
        [⟨"u1", "p1", "T1"⟩, ⟨"u2", "p2", "T2"⟩]).1 "u1" = 1 ∧
      outcomeCount (run_batched_execution_process (fun _ => ⟨Except.ok true, Except.ok true⟩)
        [⟨"u1", "p1", "T1"⟩, ⟨"u2", "p2", "T2"⟩]).1 "u1" = 1) :=
  ⟨(batch_worker_outcomes (fun _ => ⟨Except.ok true, Except.ok true⟩)
      [⟨"u1", "p1", "T1"⟩, ⟨"u2", "p2", "T2"⟩] (by decide) (by decide)).1,
   (batch_worker_outcomes (fun _ => ⟨Except.ok true, Except.ok true⟩)
      [⟨"u1", "p1", "T1"⟩, ⟨"u2", "p2", "T2"⟩] (by decide) (by decide)).2.1
     ⟨"u1", "p1", "T1"⟩ (by decide)⟩

/-! ## Wait-call counting for the two phases and the orchestrator -/

theorem countWaits_cons (e : WEv) (tr : List WEv) :
    countWaits (e :: tr) = (if e == WEv.wait then 1 else 0) + countWaits tr := by
  simp only [countWaits, List.filter_cons]
  split <;> simp [Nat.add_comm]

theorem countWaits_append (t1 t2 : List WEv) :
    countWaits (t1 ++ t2) = countWaits t1 + countWaits t2 := by
  simp [countWaits, List.filter_append]

theorem countWaits_flatten : ∀ (ls : List (List WEv)),
    countWaits ls.flatten = (ls.map countWaits).sum
  | [] => rfl
  | l :: ls => by
    rw [List.flatten_cons, countWaits_append, List.map_cons, List.sum_cons,
      countWaits_flatten ls]

theorem draftLoop_no_wait (spec : String → StepSpec) : ∀ (l : List TaskTriple)
    (res : ResultMap), countWaits (draftLoop spec l res).2.1 = 0
  | [], _ => rfl
  | t :: rest, res => by
    rcases hl : (spec t.username).login with e | b
    · cases e
      rw [draftLoop_cons_err spec t rest res hl]
      rfl
    · cases b with
      | false =>
        rw [draftLoop_cons_loginFail spec t rest res hl]
        rw [show ((draftLoop spec rest (setResult res t.username Outcome.LOGIN_FAILURE)).1,
            WEv.loginAttempt t.username ::
              (draftLoop spec rest (setResult res t.username Outcome.LOGIN_FAILURE)).2.1,
            (draftLoop spec rest (setResult res t.username Outcome.LOGIN_FAILURE)).2.2).2.1 =
          WEv.loginAttempt t.username ::
            (draftLoop spec rest (setResult res t.username Outcome.LOGIN_FAILURE)).2.1 from rfl]
        rw [countWaits_cons, draftLoop_no_wait spec rest _]
        rfl
      | true =>
        rcases ha : (spec t.username).action with e | b2
        · cases e
          rw [draftLoop_cons_actionErr spec t rest res hl ha]
          rfl
        · rw [draftLoop_cons_action spec t rest res b2 hl ha]
          rw [countWaits_cons, countWaits_cons, countWaits_cons, draftLoop_no_wait spec rest _]
          rfl

theorem execLoop_waits (spec : String → StepSpec) : ∀ (l : List TaskTriple) (res : ResultMap),
    (∀ t ∈ l, (spec t.username).login ≠ Except.error () ∧
      (spec t.username).action ≠ Except.error ()) →
    countWaits (execLoop spec l res).2.1 =
      (l.filter (fun t => loginOk (spec t.username))).length
  | [], _, _ => rfl
  | t :: rest, res, hok => by
    have hokr : ∀ s ∈ rest, (spec s.username).login ≠ Except.error () ∧
        (spec s.username).action ≠ Except.error () :=
      fun s hs => hok s (List.mem_cons_of_mem _ hs)
    rcases hl : (spec t.username).login with e | b
    · cases e
      exact absurd hl (hok t (List.mem_cons_self t rest)).1
    · cases b with
      | false =>
        rw [execLoop_cons_loginFail spec t rest res hl]
        have hlo : loginOk (spec t.username) = false := by
          rw [loginOk, hl]
        rw [List.filter_cons, hlo]
        simp only [Bool.false_eq_true, if_false]
        rw [countWaits_cons, execLoop_waits spec rest _ hokr]
        simp
      | true =>
        rcases ha : (spec t.username).action with e | b2
        · cases e
          exact absurd ha (hok t (List.mem_cons_self t rest)).2
        · rw [execLoop_cons_action spec t rest res b2 hl ha]
          have hlo : loginOk (spec t.username) = true := by
            rw [loginOk, hl]
          rw [List.filter_cons, hlo]
          simp only [if_true]
          rw [countWaits_cons, countWaits_cons, countWaits_cons, countWaits_cons,
            execLoop_waits spec rest _ hokr, List.length_cons]
          simp
          omega

theorem run_batched_draft_no_wait (spec : String → StepSpec) (batch : List TaskTriple) :
    countWaits (run_batched_draft_process spec batch).2.1 = 0 := by
  by_cases h : batch.isEmpty
  · simp [run_batched_draft_process, h]
    rfl
  · rcases hd : draftLoop spec batch [] with ⟨r0, tr0, x0⟩
    have he : batch.isEmpty = false := Bool.eq_false_iff.mpr h
    simp only [run_batched_draft_process, he, Bool.false_eq_true, if_false, hd]
    have := draftLoop_no_wait spec batch []
    rw [hd] at this
    exact this

theorem run_batched_exec_waits (spec : String → StepSpec) (batch : List TaskTriple)
    (hok : ∀ t ∈ batch, (spec t.username).login ≠ Except.error () ∧
      (spec t.username).action ≠ Except.error ()) :
    countWaits (run_batched_execution_process spec batch).2.1 =
      (batch.filter (fun t => loginOk (spec t.username))).length := by
  by_cases h : batch.isEmpty
  · have hb : batch = [] := List.isEmpty_iff.mp h
    subst hb
    rfl
  · rcases hx : execLoop spec batch [] with ⟨r0, tr0, x0⟩
    have he : batch.isEmpty = false := Bool.eq_false_iff.mpr h
    simp only [run_batched_execution_process, he, Bool.false_eq_true, if_false, hx]
    have := execLoop_waits spec batch [] hok
    rw [hx] at this
    exact this

theorem chunkSlices_flatten : ∀ (n : Nat) (l : List TaskTriple) (size : Nat),
    l.length ≤ n → size ≠ 0 → (chunkSlices l size).flatten = l
  | _, [], size, _, _ => by simp [chunkSlices]
  | 0, t :: ts, _, h, _ => by simp at h
  | n + 1, t :: ts, size, hlen, hsz => by
    rw [chunkSlices]
    rw [dif_neg hsz]
    rw [List.flatten_cons]
    have hdrop : ((t :: ts).drop size).length ≤ n := by
      rw [List.length_drop]
      simp only [List.length_cons] at hlen ⊢
      omega
    rw [chunkSlices_flatten n ((t :: ts).drop size) size hdrop hsz]
    exact List.take_append_drop size (t :: ts)

theorem chunk_tasks_flatten (tasks : List TaskTriple) (numChunks : Nat)
    (h : tasks ≠ []) : (chunk_tasks tasks numChunks).flatten = tasks := by
  rw [chunk_tasks]
  by_cases hn : numChunks = 0
  · simp [hn]
  · rw [if_neg hn]
    have hsz : (tasks.length + numChunks - 1) / numChunks ≠ 0 := by
      have hpos : 0 < tasks.length := List.length_pos.mpr h
      have hnpos : 0 < numChunks := Nat.pos_of_ne_zero hn
      have : numChunks ≤ tasks.length + numChunks - 1 := by omega
      have := (Nat.one_le_div_iff hnpos).mpr this
      omega
    exact chunkSlices_flatten tasks.length tasks _ le_rfl hsz

theorem filter_length_flatten (p : TaskTriple → Bool) : ∀ (ls : List (List TaskTriple)),
    ((ls.flatten.filter p).length) = (ls.map (fun b => (b.filter p).length)).sum
  | [] => rfl
  | l :: ls => by
    rw [List.flatten_cons, List.filter_append, List.length_append, List.map_cons,
      List.sum_cons, filter_length_flatten p ls]

/-- C1 counterexample: with one account whose login and execution
succeed, a phase 2 worker emits a market-open wait of its own, and
execute_drafts also waits before the bulk submit click; the claim would
require both counts to be zero. -/
theorem execution_worker_waits_counterexample :
    countWaits (run_batched_execution_process (fun _ => ⟨Except.ok true, Except.ok true⟩)
      [⟨"u1", "p1", "USER-u1"⟩]).2.1 ≠ 0 ∧
    countWaits (execute_drafts_trace ⟨true, true, true, true⟩) ≠ 0 := by
  refine ⟨?_, ?_⟩ <;> decide

/-- C1 amended: the orchestrator performs one market-open wait between
the phases and drafting workers never wait, but each execution worker
additionally performs one market-open wait per account whose login
succeeds, and execute_drafts performs its own wait once it has selected
the drafts; over a whole run the wait count is one plus the number of
successful phase 2 logins, not exactly one. -/
theorem market_open_wait_sites (specE : String → StepSpec)
    (hok : ∀ u, (specE u).login ≠ Except.error () ∧ (specE u).action ≠ Except.error ()) :
    (∀ (specD : String → StepSpec) (batch : List TaskTriple),
      countWaits (run_batched_draft_process specD batch).2.1 = 0) ∧
    (∀ batch : List TaskTriple,
      countWaits (run_batched_execution_process specE batch).2.1 =
        (batch.filter (fun t => loginOk (specE t.username))).length) ∧
    (∀ (specD : String → StepSpec) (creds : List Credential),
      orchestratorProceeds creds = true →
      countWaits (main_orchestrator_trace specD specE creds) =
        1 + ((buildTasks creds).filter (fun t => loginOk (specE t.username))).length) ∧
    (∀ env : ExecEnv, env.driver = true → env.draftsTabOk = true → env.bulkSelectOk = true →
      countWaits (execute_drafts_trace env) = 1) := by
  refine ⟨?_, ?_, ?_, ?_⟩
  · intro specD batch
    exact run_batched_draft_no_wait specD batch
  · intro batch
    exact run_batched_exec_waits specE batch (fun t _ => hok t.username)
  · intro specD creds hpr
    simp only [orchestratorProceeds, Bool.and_eq_true, Bool.not_eq_true'] at hpr
    have htne : buildTasks creds ≠ [] := by
      intro hnil
      rw [hnil] at hpr
      simp at hpr
    rw [main_orchestrator_trace]
    simp only [hpr.1, hpr.2, Bool.false_eq_true, if_false]
    rw [countWaits_append, countWaits_append, countWaits_flatten, countWaits_flatten,
      List.map_map, List.map_map]
    have hd0 : ((chunk_tasks (buildTasks creds) MAX_PROCESSES).map
        (countWaits ∘ fun b => (run_batched_draft_process specD b).2.1)).sum = 0 := by
      apply List.sum_eq_zero
      intro x hx
      rcases List.mem_map.mp hx with ⟨b, _, hxe⟩
      rw [← hxe]
      exact run_batched_draft_no_wait specD b
    have he : ((chunk_tasks (buildTasks creds) MAX_PROCESSES).map
        (countWaits ∘ fun b => (run_batched_execution_process specE b).2.1)).sum =
        ((buildTasks creds).filter (fun t => loginOk (specE t.username))).length := by
      have hmc : (chunk_tasks (buildTasks creds) MAX_PROCESSES).map
          (countWaits ∘ fun b => (run_batched_execution_process specE b).2.1) =
          (chunk_tasks (buildTasks creds) MAX_PROCESSES).map
            (fun b => (b.filter (fun t => loginOk (specE t.username))).length) := by
        apply List.map_congr_left
        intro b _
        exact run_batched_exec_waits specE b (fun t _ => hok t.username)
      rw [hmc, ← filter_length_flatten,
        chunk_tasks_flatten (buildTasks creds) MAX_PROCESSES htne]
    rw [hd0, he]
    have h1 : countWaits [WEv.wait] = 1 := rfl
    rw [h1]
  · intro env h1 h2 h3
    rcases env with ⟨d, ta, se, su⟩
    simp only at h1 h2 h3
    subst h1
    subst h2
    subst h3
    cases su <;> rfl

/-- Witness for the amended C1 at a concrete run: one credential, whose
login and execution succeed everywhere. -/
theorem market_open_wait_sites_witness :
    countWaits (run_batched_execution_process (fun _ => ⟨Except.ok true, Except.ok true⟩)
        [⟨"alice", "pa", "USER-alice"⟩]).2.1 =
      (([⟨"alice", "pa", "USER-alice"⟩] : List TaskTriple).filter
        (fun t => loginOk ((fun _ => ⟨Except.ok true, Except.ok true⟩ :
          String → StepSpec) t.username))).length ∧
    countWaits (main_orchestrator_trace (fun _ => ⟨Except.ok true, Except.ok true⟩)
        (fun _ => ⟨Except.ok true, Except.ok true⟩) [⟨"alice", "pa"⟩]) =
      1 + ((buildTasks [⟨"alice", "pa"⟩]).filter
        (fun t => loginOk ((fun _ => ⟨Except.ok true, Except.ok true⟩ :
          String → StepSpec) t.username))).length ∧
    countWaits (execute_drafts_trace ⟨true, true, true, false⟩) = 1 :=
  ⟨(market_open_wait_sites (fun _ => ⟨Except.ok true, Except.ok true⟩)
      (fun _ => ⟨fun h => Except.noConfusion h, fun h => Except.noConfusion h⟩)).2.1
    [⟨"alice", "pa", "USER-alice"⟩],
   (market_open_wait_sites (fun _ => ⟨Except.ok true, Except.ok true⟩)
      (fun _ => ⟨fun h => Except.noConfusion h, fun h => Except.noConfusion h⟩)).2.2.1
    (fun _ => ⟨Except.ok true, Except.ok true⟩) [⟨"alice", "pa"⟩] (by decide),
   (market_open_wait_sites (fun _ => ⟨Except.ok true, Except.ok true⟩)
      (fun _ => ⟨fun h => Except.noConfusion h, fun h => Except.noConfusion h⟩)).2.2.2
    ⟨true, true, true, false⟩ rfl rfl rfl⟩
